import Mathlib

/-!
A shallow embedding of the results-js outcome-tracking library: the
Action/Result/Issue outcome model, the `invoke` engine
(`src/helpers/invoke.ts`), the name-keyed Ledger registry, the id-keyed
Action/Ledger variant (`src/core/action.ts`, `src/core/ledger.ts`), and the
state container (`src/__core/store.ts`).

Modelling conventions:
* Asynchronous functions are modelled as pure functions; a rejected promise
  or a synchronous `throw` is an `Except.error`.
* JavaScript `undefined`/`null` for object-typed values is `Option.none`.
* States are top-level JavaScript objects: association lists from string
  keys to primitive values; the object-spread merge is `spreadMerge`.
* `Date.now()` and the fresh UUIDs are threaded in explicitly (an `Env`
  argument, or a fresh numeric id); timestamps are milliseconds as `Nat`.
* Fields no claim observes (instance uuids of Result/Issue, metadata,
  subscriber and middleware lists, the opaque datastore handle) are omitted;
  they never feed back into the observable behaviour modelled here.
* JSON strings for digests are elided: the digest callbacks receive and
  return the serializable digest record itself, since no claim observes the
  string form and `JSON.parse (JSON.stringify x) = x` on these records.
-/

namespace ResultsJS

/-- A primitive JavaScript value, as far as the claims need them. -/
inductive Value where
  | vnull
  | vbool (b : Bool)
  | vint (n : Int)
  | vstr (s : String)
deriving DecidableEq, Repr

/-- A top-level JavaScript object: ordered fields, later reads use the
first occurrence of a key. -/
abbrev Obj := List (String × Value)

/-- Lookup of a field, `o[k]`. -/
def objGet (o : Obj) (k : String) : Option Value :=
  (o.find? (fun p => p.1 = k)).map (fun p => p.2)

/-- JavaScript object spread `\x7b ...a, ...b \x7d`: every key of `a` in
order, overridden by `b` where present, then the keys of `b` not in `a`. -/
def spreadMerge (a b : Obj) : Obj :=
  (a.map (fun p => (p.1, ((objGet b p.1).getD p.2)))) ++
    b.filter (fun p => objGet a p.1 = Option.none)

/-- A JavaScript `Error` value; only the message is observable here. -/
structure Error where
  message : String
deriving DecidableEq, Repr

/-- A thrown JavaScript value: either a real `Error` or some other value,
carried as its string form. -/
inductive Thrown where
  | err (e : Error)
  | other (s : String)
deriving DecidableEq, Repr

/-- The coercion `error instanceof Error ? error : new Error(String(error))`
performed at the invoke boundary. -/
def Thrown.toError : Thrown → Error
  | .err e => e
  | .other s => { message := s }

/-- The Effect produced by an action executable: content plus a state
transform (which may itself throw). -/
structure Effect where
  content : Value
  transform : Obj → Except Thrown Obj

/-- An executable: `(state, params) => Promise of Effect`; rejection or a
synchronous throw is `Except.error`. -/
abbrev Exec := Obj → List Value → Except Thrown Effect

/-- The name-keyed Action of `src/__core/action.ts` (and
`src/modules/action.ts`): name, params, executable, creation timestamp.
This variant has no id and no correlationId field. -/
structure Action where
  name : String
  params : List Value
  exec : Exec
  timestamp : Nat

/-- The serialized form `toJSON` of the name-keyed Action:
`\x7b name, params, timestamp \x7d`. -/
structure ActionJSON where
  name : String
  params : List Value
  timestamp : Nat

/-- The name-keyed Ledger of `src/__core/ledger.ts`: a registry from action
name to executable. -/
structure Ledger where
  entries : List (String × Exec)

/-- `Ledger.has`: pure existence check. -/
def Ledger.has (l : Ledger) (k : String) : Bool :=
  l.entries.any (fun p => p.1 = k)

/-- `Ledger.set`: registers, throwing if the key is already present. -/
def Ledger.set (l : Ledger) (k : String) (e : Exec) : Except Error Ledger :=
  if l.has k then
    .error { message := "Exec function for action " ++ k ++ " is already registered." }
  else
    .ok { entries := l.entries ++ [(k, e)] }

/-- `Ledger.get`: looks up, throwing if absent. -/
def Ledger.get (l : Ledger) (k : String) : Except Error Exec :=
  match l.entries.find? (fun p => p.1 = k) with
  | some p => .ok p.2
  | none => .error { message := "Exec function for action " ++ k ++ " is not registered." }

/-- `Action.create` (name-keyed variant): registers the executable under the
name when the name is not yet present (first writer wins), then returns the
new action stamped with the current time. -/
def Action.create (name : String) (params : List Value) (exec : Exec) (now : Nat)
    (led : Ledger) : Action × Ledger :=
  let led' := if led.has name then led else { entries := led.entries ++ [(name, exec)] }
  ({ name := name, params := params, exec := exec, timestamp := now }, led')

/-- The stub executable attached by `fromJSON`: always rejects. -/
def stubExec : Exec := fun _ _ =>
  .error (.err { message := "Exec function not implemented. Attach exec function using attach()." })

/-- `Action.toJSON` (name-keyed variant): plain record, no side effect. -/
def Action.toJSON (a : Action) : ActionJSON :=
  { name := a.name, params := a.params, timestamp := a.timestamp }

/-- `Action.fromJSON` (name-keyed variant): rebuilds the action with the
serialized name and params, a fresh timestamp, and the always-rejecting
stub executable. -/
def Action.fromJSON (aj : ActionJSON) (now : Nat) : Action :=
  { name := aj.name, params := aj.params, exec := stubExec, timestamp := now }

/-- `Action.attach`: replaces the executable (the source eta-wraps the
function; the wrapper is extensionally the function itself). -/
def Action.attach (a : Action) (e : Exec) : Action :=
  { a with exec := e }

/-- The Result outcome of `src/__core/result.ts`. The instance uuid,
timestamps and metadata are omitted (no claim observes them); on this
Action variant `action.correlationId` reads as `undefined`, i.e. `none`. -/
structure Result where
  correlationId : Option String
  success : Bool
  content : Value
  errors : List Error
  action : Action
  prevState : Option Obj
  nextState : Option Obj

/-- `Result.mkSuccess action content prevState nextState`: success flag true,
empty errors, correlationId read off the action (absent on this variant). -/
def Result.mkSuccess (a : Action) (content : Value) (prevState : Option Obj)
    (nextState : Obj) : Result :=
  { correlationId := none, success := true, content := content, errors := [],
    action := a, prevState := prevState, nextState := some nextState }

/-- `Result.mkFailure action errors prevState nextState`. -/
def Result.mkFailure (a : Action) (errors : List Error) (prevState : Option Obj)
    (nextState : Option Obj) : Result :=
  { correlationId := none, success := false, content := Value.vnull, errors := errors,
    action := a, prevState := prevState, nextState := nextState }

/-- An error entry of a serialized Result: `\x7b message, name? \x7d`. -/
structure ErrorJSON where
  message : String
  name : Option String
deriving DecidableEq, Repr

/-- The serialized action reference inside a Result record. -/
structure ActionRefJSON where
  id : String
  name : String
  params : List Value
  correlationId : Option String

/-- The serialized Result record (`IResultJSON`). -/
structure ResultJSON where
  id : String
  correlationId : Option String
  success : Bool
  content : Value
  errors : List ErrorJSON
  action : ActionRefJSON
  prevState : Option Obj
  nextState : Option Obj
  timestamp : Nat
  executionTime : Option Int

/-- `Result.fromJSON` (no state-deserialization callback): validates the
shape (always satisfied by a well-typed record), rebuilds the action via
`Action.fromJSON`, turns each serialized error back into an `Error`, and
copies success, content and both states verbatim. -/
def Result.fromJSON (j : ResultJSON) (now : Nat) : Result :=
  { correlationId := j.action.correlationId,
    success := j.success,
    content := j.content,
    errors := j.errors.map (fun e => { message := e.message }),
    action := Action.fromJSON { name := j.action.name, params := j.action.params, timestamp := 0 } now,
    prevState := j.prevState,
    nextState := j.nextState }

/-- The Issue of `src/__core/issue.ts`: an Error subclass carrying the
failed Result and the originating action. -/
structure Issue where
  correlationId : Option String
  name : String
  message : String
  result : Result
  action : Action

/-- `Issue.fromAction action error`: wraps the error into a failed Result
with both states null. -/
def Issue.fromAction (a : Action) (e : Error) : Issue :=
  { correlationId := none, name := "Issue", message := e.message,
    result := Result.mkFailure a [e] none none, action := a }

/-- The errors captured by an issue (exposed through its failed result). -/
def Issue.errors (i : Issue) : List Error :=
  i.result.errors

/-- The outcome of an invocation: exactly one of a Result or an Issue. -/
inductive Outcome where
  | result (r : Result)
  | issue (i : Issue)

/-- The message of the issue an outcome carries, if it is an issue. -/
def Outcome.issueMessage : Outcome → Option String
  | .issue i => some i.message
  | .result _ => none

/-- Whether an outcome is an Issue. -/
def Outcome.isIssue : Outcome → Bool
  | .issue _ => true
  | .result _ => false

/-- Whether an outcome is a Result. -/
def Outcome.isResult : Outcome → Bool
  | .issue _ => false
  | .result _ => true

/-- The invocation engine of `src/helpers/invoke.ts`: runs the executable,
applies the transform, wraps success into `Result.mkSuccess`; any throw from
either step becomes an Issue via `Issue.fromAction`, coercing non-Error
thrown values with `Thrown.toError`. -/
def invoke (a : Action) (currentState : Obj) : Outcome :=
  match a.exec currentState a.params with
  | .error t => .issue (Issue.fromAction a (Thrown.toError t))
  | .ok effect =>
    match effect.transform currentState with
    | .error t => .issue (Issue.fromAction a (Thrown.toError t))
    | .ok newState => .result (Result.mkSuccess a effect.content (some currentState) newState)

/-! ## The state container (`src/__core/store.ts`) -/

/-- The serializable digest stored in the local digest list and handed to
the persistence callback: history entries in their `toJSON` form. -/
structure SDigest where
  id : String
  timestamp : Nat
  state : Obj
  history : List ActionJSON

/-- A digest whose history has been restored to live actions (the value
`findDigest` produces). -/
structure Digest where
  id : String
  timestamp : Nat
  state : Obj
  history : List Action

/-- The digest persistence callback
`(serializedDigest) => Promise of string or undefined`, with the JSON
string layer elided; a thrown value is `Except.error`. -/
abbrev DigestCallback := SDigest → Except Error (Option SDigest)

/-- The digest fetch callback `(id) => Promise of string or undefined`,
with the JSON string layer elided. -/
abbrev FetchCallback := String → Except Error (Option SDigest)

/-- The runtime environment of one store call: the current clock value and
the uuid a created digest would get. -/
structure Env where
  now : Nat
  digestId : String

/-- The Store: current state, history bookkeeping, digest bookkeeping and
the construction-time configuration. Subscriber/middleware lists, metadata
and the opaque datastore handle are omitted (their exceptions are caught
and logged inside the store and never reach the modelled state). -/
structure Store where
  state : Obj
  currentActionIndex : Int
  actionCounter : Nat
  history : List Action
  maxHistorySize : Nat
  maxHistoryTime : Nat
  digests : List SDigest
  digestInterval : Nat

/-- `Store.create`: validates the history bounds
(size in 1..100000, time in 1 hour..7 days, both in ms) and initializes an
empty container. -/
def Store.create (initialState : Obj) (maxHistorySize : Nat) (maxHistoryTime : Nat)
    (digestInterval : Nat) : Except Error Store :=
  if maxHistorySize = 0 ∨ 100000 < maxHistorySize then
    .error { message := "maxHistorySize must be between 1 and 100000." }
  else if maxHistoryTime < 3600000 ∨ 604800000 < maxHistoryTime then
    .error { message := "maxHistoryTime must be between 1 hour and 7 days." }
  else
    .ok { state := initialState, currentActionIndex := -1, actionCounter := 0,
          history := [], maxHistorySize := maxHistorySize,
          maxHistoryTime := maxHistoryTime, digests := [],
          digestInterval := digestInterval }

/-- `manageHistoryBySize`: while the history is longer than the cap, shift
the oldest entry off the front. -/
def manageHistoryBySize (h : List Action) (maxSize : Nat) : List Action :=
  h.drop (h.length - maxSize)

/-- `manageHistoryByTime`: keep only entries whose age relative to the
current time is at most the cap (entries with a future timestamp have
non-positive age and are kept, as in the source). -/
def manageHistoryByTime (now : Nat) (maxTime : Nat) (h : List Action) : List Action :=
  h.filter (fun a => (now : Int) - (a.timestamp : Int) ≤ (maxTime : Int))

/-- `Store.apply`: runs the invocation engine and rethrows an Issue outcome
as an exception, returning only success Results. -/
def applyA (a : Action) (state : Obj) : Except Issue Result :=
  match invoke a state with
  | .issue i => .error i
  | .result r => .ok r

/-- `Store.makeDigest` followed by `Store.saveDigest`: builds the
serializable digest from the current state and history; with a callback,
hands it over (the callback may throw, and its parsed return value is
discarded by `makeDigest`); without one, appends it to the local list. -/
def Store.makeDigest (st : Store) (env : Env) (cb : Option DigestCallback) :
    Except Error Store :=
  let sd : SDigest := { id := env.digestId, timestamp := env.now, state := st.state,
                        history := st.history.map Action.toJSON }
  match cb with
  | some f => (f sd).map (fun _ => st)
  | none => .ok { st with digests := st.digests ++ [sd] }

/-- The history push-and-prune prefix of `Store.add`: append, prune by
size, then prune by age. -/
def Store.pruneAdd (st : Store) (now : Nat) (a : Action) : Store :=
  { st with history :=
      (manageHistoryByTime now st.maxHistoryTime
        (manageHistoryBySize (st.history ++ [a]) st.maxHistorySize)) }

/-- The success path of `Store.add` after the outcome came back
successful: shallow-merge the next state, bump the action counter, digest
when the interval is reached (a throwing digest callback is caught by the
surrounding try, returning an Issue with the mutations so far kept), then
advance the current pointer. -/
def Store.addAfterSuccess (st : Store) (env : Env) (a : Action) (r : Result)
    (cb : Option DigestCallback) : Outcome × Store :=
  let st2 := match r.nextState with
    | some ns => { st with state := spreadMerge st.state ns }
    | none => st
  let st3 := { st2 with actionCounter := st2.actionCounter + 1 }
  if st3.digestInterval ≤ st3.actionCounter then
    match st3.makeDigest env cb with
    | .error e => (.issue (Issue.fromAction a e), st3)
    | .ok st4 =>
      (.result r,
        { st4 with actionCounter := 0, currentActionIndex := (st4.history.length : Int) - 1 })
  else
    (.result r, { st3 with currentActionIndex := (st3.history.length : Int) - 1 })

/-- `Store.add`: push and prune the history, invoke the engine, and on a
success Result merge the state and run the digest/pointer bookkeeping; any
exception (a failed invocation rethrown by `apply`, or a throwing digest
callback) is caught and returned as an Issue. -/
def Store.add (st : Store) (env : Env) (a : Action) (currentState : Obj)
    (cb : Option DigestCallback) : Outcome × Store :=
  let st1 := st.pruneAdd env.now a
  match applyA a currentState with
  | .error i => (.issue i, st1)
  | .ok r => if r.success then st1.addAfterSuccess env a r cb else (.result r, st1)

/-- The executable of the internal `GENERIC_ERROR_ACTION` that `rerun`,
`reset` and `hydrate` construct on entry: it always throws. -/
def genericThrowExec : Exec := fun _ _ =>
  .error (.err { message := "Generic error" })

/-- The sequential replay loop of `Store.rerun` over the history prefix:
fold each success nextState forward (a null nextState keeps the base), and
let the Issue a failing entry rethrows short-circuit the loop. -/
def rerunLoop : List Action → Obj → Except Issue Obj
  | [], s => .ok s
  | a :: rest, s =>
    match applyA a s with
    | .error i => .error i
    | .ok r => rerunLoop rest (match r.nextState with | some ns => ns | none => s)

/-- The body of `Store.rerun` after the `GENERIC_ERROR_ACTION` has been
created: an out-of-range index returns an immediate Issue before touching
anything; otherwise entries 0..index are replayed from the base state, the
final state is shallow-merged in, the pointer moves to `index`, and the
digest bookkeeping runs (a throwing digest callback is caught, returning
an Issue with the state and pointer mutations kept). -/
def Store.rerunCore (st : Store) (env : Env) (ga : Action) (index : Int)
    (currentState : Obj) (cb : Option DigestCallback) : Outcome × Store :=
  if index < 0 ∨ (st.history.length : Int) ≤ index then
    (.issue (Issue.fromAction ga { message := "Invalid index for rerun." }), st)
  else
    match rerunLoop (st.history.take (index.toNat + 1)) currentState with
    | .error i => (.issue i, st)
    | .ok ns =>
      let st1 := { st with state := spreadMerge st.state ns, currentActionIndex := index }
      let st2 := { st1 with actionCounter := st1.actionCounter + 1 }
      let final := Result.mkSuccess ((st.history.get? index.toNat).getD ga) Value.vnull
        (some currentState) ns
      if st2.digestInterval ≤ st2.actionCounter then
        match st2.makeDigest env cb with
        | .error e => (.issue (Issue.fromAction ga e), st2)
        | .ok st3 => (.result final, { st3 with actionCounter := 0 })
      else
        (.result final, st2)

/-- `Store.rerun`: creates the internal `GENERIC_ERROR_ACTION` (the only
Ledger effect of the call), then runs the replay body. -/
def Store.rerun (st : Store) (led : Ledger) (env : Env) (index : Int)
    (currentState : Obj) (cb : Option DigestCallback) : Outcome × Store × Ledger :=
  let created := Action.create "GENERIC_ERROR_ACTION" [] genericThrowExec env.now led
  let body := st.rerunCore env created.1 index currentState cb
  (body.1, body.2, created.2)

/-- The body of `Store.reset` after the `GENERIC_ERROR_ACTION` has been
created: with a non-negative pointer, re-invoke the entry at the pointer;
on a success outcome merge the state, bump the counter, digest when due (a
throwing digest callback is caught before the pointer moves), decrement
the pointer, and return a success Result whose nextState is the merged
container state; with pointer -1 return the no-actions Issue. Reading past
the end of the history dereferences `undefined` and surfaces as a caught
TypeError. -/
def Store.resetCore (st : Store) (env : Env) (ga : Action) (currentState : Obj)
    (cb : Option DigestCallback) : Outcome × Store :=
  if 0 ≤ st.currentActionIndex then
    match st.history.get? st.currentActionIndex.toNat with
    | none =>
      (.issue (Issue.fromAction ga
        { message := "Cannot read properties of undefined (reading correlationId)" }), st)
    | some action =>
      match applyA action currentState with
      | .error i => (.issue i, st)
      | .ok r =>
        match r.nextState with
        | some ns =>
          let st1 := { st with state := spreadMerge st.state ns }
          let st2 := { st1 with actionCounter := st1.actionCounter + 1 }
          if st2.digestInterval ≤ st2.actionCounter then
            match st2.makeDigest env cb with
            | .error e => (.issue (Issue.fromAction ga e), st2)
            | .ok st3 =>
              let st4 :=
                { st3 with actionCounter := 0,
                           currentActionIndex := st3.currentActionIndex - 1 }
              (.result (Result.mkSuccess action Value.vnull (some currentState) st4.state), st4)
          else
            let st4 := { st2 with currentActionIndex := st2.currentActionIndex - 1 }
            (.result (Result.mkSuccess action Value.vnull (some currentState) st4.state), st4)
        | none =>
          (.issue (Issue.fromAction action
            { message := "Reset failed: unexpected result type" }), st)
  else
    (.issue (Issue.fromAction ga { message := "No actions to reset." }), st)

/-- `Store.reset`: creates the internal `GENERIC_ERROR_ACTION` (the only
Ledger effect of the call), then runs the reset body. -/
def Store.reset (st : Store) (led : Ledger) (env : Env) (currentState : Obj)
    (cb : Option DigestCallback) : Outcome × Store × Ledger :=
  let created := Action.create "GENERIC_ERROR_ACTION" [] genericThrowExec env.now led
  let body := st.resetCore env created.1 currentState cb
  (body.1, body.2, created.2)

/-- The restoration of a digest's serialized history inside `findDigest`:
each record is rebuilt via `Action.fromJSON` and re-attached with the
executable the Ledger holds under the action name; a missing name throws
and aborts the whole restoration. -/
def restoreHistory (led : Ledger) (now : Nat) : List ActionJSON → Except Error (List Action)
  | [] => .ok []
  | aj :: rest =>
    match led.get aj.name with
    | .error e => .error e
    | .ok exec =>
      match restoreHistory led now rest with
      | .error e => .error e
      | .ok acts => .ok ((Action.fromJSON aj now).attach exec :: acts)

/-- `Store.findDigest`: fetch externally when a callback is given, fall
back to the local digest list (throwing a not-found error when absent),
then restore the history through the Ledger. -/
def Store.findDigest (st : Store) (led : Ledger) (env : Env) (id : String)
    (cb : Option FetchCallback) : Except Error Digest := do
  let fetched : Option SDigest ←
    match cb with
    | some f => f id
    | none => pure none
  let sd : SDigest ←
    match fetched with
    | some sd => pure sd
    | none =>
      match st.digests.find? (fun d => d.id = id) with
      | some l => pure l
      | none =>
        Except.error { message := "Digest with ID " ++ id ++ " not found in local history." }
  let acts ← restoreHistory led env.now sd.history
  pure { id := sd.id, timestamp := sd.timestamp, state := sd.state, history := acts }

/-- The body of `Store.hydrate` after the `GENERIC_ERROR_ACTION` has been
created: on a found digest, shallow-merge the digest state over the
current state, replace the history wholesale with the restored one, move
the pointer to its end and reset the action counter, returning a success
Result whose prev and next states are both the new container state; any
failure in lookup or restoration is caught and returned as an Issue with
the store untouched. -/
def Store.hydrateCore (st : Store) (led : Ledger) (env : Env) (ga : Action)
    (digestId : String) (cb : Option FetchCallback) : Outcome × Store :=
  match st.findDigest led env digestId cb with
  | .error e => (.issue (Issue.fromAction ga e), st)
  | .ok d =>
    let st1 := { st with state := spreadMerge st.state d.state, history := d.history }
    let st2 :=
      { st1 with currentActionIndex := (d.history.length : Int) - 1, actionCounter := 0 }
    (.result (Result.mkSuccess ga Value.vnull (some st2.state) st2.state), st2)

/-- `Store.hydrate`: creates the internal `GENERIC_ERROR_ACTION` (the only
Ledger write of the call), then runs the hydration body. -/
def Store.hydrate (st : Store) (led : Ledger) (env : Env) (digestId : String)
    (cb : Option FetchCallback) : Outcome × Store × Ledger :=
  let created := Action.create "GENERIC_ERROR_ACTION" [] genericThrowExec env.now led
  let body := st.hydrateCore created.2 env created.1 digestId cb
  (body.1, body.2, created.2)

/-- The effect produced by the sample executable used in the witnesses
(content 3, transform merging a count field, as in the repository tests). -/
def wEffect : Effect :=
  { content := .vint 3,
    transform := fun s => .ok (spreadMerge s [("count", Value.vint 3)]) }

/-- A sample non-throwing action. -/
def wAct : Action :=
  { name := "TEST_ACTION", params := [.vint 1, .vint 2, .vint 3],
    exec := fun _ _ => .ok wEffect, timestamp := 0 }

/-- A sample action whose executable always throws. -/
def wErrAct : Action :=
  { name := "ERROR_ACTION", params := [],
    exec := fun _ _ => .error (.err { message := "Test error" }), timestamp := 0 }


/-! ## The id-keyed Action/Ledger variant (`src/core/action.ts`,
`src/core/ledger.ts`) -/

/-- A key of the id-keyed Ledger: action names and action ids live in the
same string-keyed map in the source; uuids never collide with action
names, so the two key kinds are kept apart. Uuids are modelled as numeric
serials. -/
inductive CKey where
  | kname (s : String)
  | kid (n : Nat)
deriving DecidableEq, Repr

/-- The display form of a key inside Ledger error messages. -/
def CKey.str : CKey → String
  | .kname s => s
  | .kid n => toString n

/-- The id-keyed Ledger of `src/core/ledger.ts`. -/
structure CLedger where
  entries : List (CKey × Exec)

/-- `Ledger.has` (id-keyed variant). -/
def CLedger.has (l : CLedger) (k : CKey) : Bool :=
  l.entries.any (fun p => p.1 = k)

/-- `Ledger.set` (id-keyed variant): throws if the key is present. -/
def CLedger.set (l : CLedger) (k : CKey) (e : Exec) : Except Error CLedger :=
  if l.has k then
    .error { message := "Exec function for action " ++ k.str ++ " is already registered." }
  else
    .ok { entries := l.entries ++ [(k, e)] }

/-- `Ledger.get` (id-keyed variant): throws if the key is absent. -/
def CLedger.get (l : CLedger) (k : CKey) : Except Error Exec :=
  match l.entries.find? (fun p => p.1 = k) with
  | some p => .ok p.2
  | none => .error { message := "Exec function for action " ++ k.str ++ " is not registered." }

/-- The Action of `src/core/action.ts`: carries a generated unique id and
an optional correlationId in addition to name, params, executable,
timestamp. -/
structure CAction where
  id : Nat
  correlationId : Option String
  name : String
  params : List Value
  exec : Exec
  timestamp : Nat

/-- The serialized form of the id-keyed Action:
`\x7b id, correlationId, name, params, timestamp \x7d`. -/
structure CActionJSON where
  id : Nat
  correlationId : Option String
  name : String
  params : List Value
  timestamp : Nat

/-- `Action.create` (id-keyed variant): generates a fresh id, registers
the executable under the NAME when the name is not yet present, returns
the new action. -/
def CAction.create (name : String) (params : List Value) (exec : Exec)
    (correlationId : Option String) (fresh : Nat) (now : Nat) (led : CLedger) :
    CAction × CLedger :=
  let led' := if led.has (.kname name) then led
              else { entries := led.entries ++ [(.kname name, exec)] }
  ({ id := fresh, correlationId := correlationId, name := name, params := params,
     exec := exec, timestamp := now }, led')

/-- `Action.toJSON` (id-keyed variant): FIRST registers the executable
under the action id in the Ledger — `Ledger.set` throws when the id is
already registered — then returns the serialized record. -/
def CAction.toJSON (a : CAction) (led : CLedger) :
    Except Error (CActionJSON × CLedger) :=
  match led.set (.kid a.id) a.exec with
  | .error e => .error e
  | .ok led' =>
    .ok ({ id := a.id, correlationId := a.correlationId, name := a.name,
           params := a.params, timestamp := a.timestamp }, led')

/-- `Action.attach` (id-keyed variant; the source eta-wraps the function). -/
def CAction.attach (a : CAction) (e : Exec) : CAction :=
  { a with exec := e }

/-- `Action.fromJSON` (id-keyed variant): rebuilds the operation with a
NEW id, preserving correlationId, name and params, with the
always-rejecting stub attached; when the ORIGINAL serialized id is in the
Ledger, the registered executable is re-attached (`Ledger.rehydrate`),
otherwise a warning is logged and the stub stays. -/
def CAction.fromJSON (j : CActionJSON) (fresh : Nat) (now : Nat) (led : CLedger) :
    CAction :=
  let base : CAction :=
    { id := fresh, correlationId := j.correlationId, name := j.name,
      params := j.params, exec := stubExec, timestamp := now }
  if led.has (.kid j.id) then
    match led.get (.kid j.id) with
    | .ok e => base.attach e
    | .error _ => base
  else
    base

/-! ## Concrete scenario values used by witnesses and counterexamples -/

/-- An empty name-keyed Ledger. -/
def emptyLedger : Ledger := { entries := [] }

/-- A store for the boundary witnesses: empty history, pointer -1. -/
def wStore : Store :=
  { state := [("a", .vint 1)], currentActionIndex := -1, actionCounter := 0,
    history := [], maxHistorySize := 50, maxHistoryTime := 86400000,
    digests := [], digestInterval := 1 }

/-- A sample environment. -/
def wEnv : Env := { now := 5, digestId := "digest-1" }

/-- An action whose effect merges a single field b := 2 into the state. -/
def bAct : Action :=
  { name := "ADD_B", params := [],
    exec := fun _ _ =>
      .ok { content := .vint 7,
            transform := fun s => .ok (spreadMerge s [("b", .vint 2)]) },
    timestamp := 5 }

/-- A digest persistence callback that always throws. -/
def throwingCallback : DigestCallback :=
  fun _ => .error { message := "datastore down" }

/-- The executable of the history action in the digest round-trip
scenario. -/
def c3Exec : Exec := fun _ _ =>
  .ok { content := .vnull, transform := fun s => .ok s }

/-- The history action of the digest round-trip scenario. -/
def c3Act : Action :=
  { name := "ACT", params := [], exec := c3Exec, timestamp := 0 }

/-- The starting store of the digest round-trip scenario: one history
entry, state a := 1. -/
def c3Store : Store :=
  { state := [("a", .vint 1)], currentActionIndex := 0, actionCounter := 0,
    history := [c3Act], maxHistorySize := 50, maxHistoryTime := 86400000,
    digests := [], digestInterval := 10 }

/-- The name-keyed Ledger of the digest round-trip scenario (the history
action was created through `Action.create`, so its name is registered). -/
def c3Ledger : Ledger := { entries := [("ACT", c3Exec)] }

/-- The store after `makeDigest` in the round-trip scenario. -/
def c3St1 : Store :=
  { c3Store with digests :=
      [{ id := "digest-1", timestamp := 5, state := [("a", .vint 1)],
         history := [{ name := "ACT", params := [], timestamp := 0 }] }] }

/-- The snapshot captured by the digest in the round-trip scenario. -/
def c3SD : SDigest :=
  { id := "digest-1", timestamp := 5, state := [("a", .vint 1)],
    history := [{ name := "ACT", params := [], timestamp := 0 }] }

/-- The executable of the id-keyed serialization scenario. -/
def c5Exec : Exec := fun _ _ =>
  .ok { content := .vnull, transform := fun s => .ok s }

/-- The id-keyed action of the serialization scenario (id 7). -/
def c5Act : CAction :=
  { id := 7, correlationId := some "corr-1", name := "TEST_ACTION", params := [.vint 1],
    exec := c5Exec, timestamp := 3 }

/-- The id-keyed Ledger after the first `toJSON` of `c5Act` (its id is
registered). -/
def c5Led : CLedger := { entries := [(.kid 7, c5Exec)] }

/-- A success-flagged Result record carrying a non-empty errors array; all
three structural validations of `Result.fromJSON` hold for it. -/
def c6Json : ResultJSON :=
  { id := "r-1", correlationId := none, success := true, content := .vnull,
    errors := [{ message := "boom", name := some "Error" }],
    action := { id := "a-1", name := "A", params := [], correlationId := none },
    prevState := none, nextState := none, timestamp := 0, executionTime := none }

/-- The concrete store of the reset witness: one history entry, pointer at
it. -/
def c9Store : Store :=
  { state := [("a", .vint 1)], currentActionIndex := 0, actionCounter := 0,
    history := [bAct], maxHistorySize := 50, maxHistoryTime := 86400000,
    digests := [], digestInterval := 10 }

/-- One `add` call: its environment, action, caller-passed base state and
optional digest callback. -/
structure AddCall where
  env : Env
  action : Action
  currentState : Obj
  cb : Option DigestCallback

/-- A sequence of `add` calls folded over a store (each call awaited to
completion before the next, as the concurrency model prescribes). -/
def Store.addMany (st : Store) (calls : List AddCall) : Store :=
  calls.foldl (fun s c => (s.add c.env c.action c.currentState c.cb).2) st

/-- The store produced by `Store.create` in the history-bounds witness. -/
def c7Store : Store :=
  { state := [("a", .vint 1)], currentActionIndex := -1, actionCounter := 0,
    history := [], maxHistorySize := 50, maxHistoryTime := 86400000,
    digests := [], digestInterval := 10 }

/-- The environment of the second step of the digest round-trip scenario. -/
def c3Env1 : Env := { now := 6, digestId := "digest-2" }

/-- The environment of the hydration step of the digest round-trip
scenario. -/
def c3Env2 : Env := { now := 7, digestId := "digest-3" }

/-- The store of the digest round-trip scenario after the digest was taken
and one further action was added. -/
def c3St2 : Store := (c3St1.add c3Env1 bAct c3St1.state none).2

/-! ## Theorems -/

/-- Every outcome is exactly one of a Result or an Issue (the no-throw
boundary returns this sum type). -/
theorem outcome_total (o : Outcome) : o.isResult = true ∨ o.isIssue = true := by
  cases o with
  | result r => left; rfl
  | issue i => right; rfl

/-- A successful `makeDigest` changes at most the digest list. -/
theorem makeDigest_ok (st : Store) (env : Env) (cb : Option DigestCallback) (st' : Store)
    (h : st.makeDigest env cb = .ok st') : st' = { st with digests := st'.digests } := by
  unfold Store.makeDigest at h
  cases cb with
  | none =>
    simp only [] at h
    cases h
    rfl
  | some f =>
    simp only [Except.map] at h
    split at h
    · cases h
    · cases h
      rfl

/-- After `Action.create`, the name is registered. -/
theorem ledger_has_after_create (n : String) (ps : List Value) (e : Exec) (now : Nat)
    (l : Ledger) : Ledger.has (Action.create n ps e now l).2 n = true := by
  unfold Action.create
  split
  · next h => exact h
  · next h =>
    unfold Ledger.has
    rw [List.any_append, Bool.or_eq_true]
    right
    simp [List.any_cons]

/-- C1: invoke always yields exactly one of Result or Issue and never
throws: a non-throwing executable and transform give a success Result with
the effect content, the input state as prevState and the transformed state
as nextState; a throw from the executable or the transform gives an Issue
whose errors contain the (coerced) thrown error and whose action is the
operation. -/
theorem invoke_spec (a : Action) (s : Obj) :
    ((invoke a s).isResult = true ∨ (invoke a s).isIssue = true) ∧
    (∀ eff ns, a.exec s a.params = .ok eff → eff.transform s = .ok ns →
      invoke a s = .result (Result.mkSuccess a eff.content (some s) ns)) ∧
    (∀ t, a.exec s a.params = .error t →
      invoke a s = .issue (Issue.fromAction a (Thrown.toError t)) ∧
      Thrown.toError t ∈ (Issue.fromAction a (Thrown.toError t)).errors ∧
      (Issue.fromAction a (Thrown.toError t)).action = a) ∧
    (∀ eff t, a.exec s a.params = .ok eff → eff.transform s = .error t →
      invoke a s = .issue (Issue.fromAction a (Thrown.toError t)) ∧
      Thrown.toError t ∈ (Issue.fromAction a (Thrown.toError t)).errors ∧
      (Issue.fromAction a (Thrown.toError t)).action = a) := by
  refine ⟨?_, ?_, ?_, ?_⟩
  · cases h : a.exec s a.params with
    | error t => right; simp [invoke, h, Outcome.isIssue]
    | ok eff =>
      cases ht : eff.transform s with
      | error t => right; simp [invoke, h, ht, Outcome.isIssue]
      | ok ns => left; simp [invoke, h, ht, Outcome.isResult]
  · intro eff ns hexec htrans
    simp [invoke, hexec, htrans]
  · intro t hexec
    refine ⟨?_, ?_, rfl⟩
    · simp [invoke, hexec]
    · simp [Issue.fromAction, Issue.errors, Result.mkFailure]
  · intro eff t hexec htrans
    refine ⟨?_, ?_, rfl⟩
    · simp [invoke, hexec, htrans]
    · simp [Issue.fromAction, Issue.errors, Result.mkFailure]

/-- Witness for C1: the success and failure branches of `invoke_spec` at
concrete inputs. -/
theorem invoke_spec_witness :
    invoke wAct [("value", .vint 0)] =
      .result (Result.mkSuccess wAct wEffect.content (some [("value", .vint 0)])
        [("value", .vint 0), ("count", .vint 3)]) ∧
    invoke wErrAct [("value", .vint 0)] =
      .issue (Issue.fromAction wErrAct (Thrown.toError (.err { message := "Test error" }))) :=
  ⟨(invoke_spec wAct [("value", .vint 0)]).2.1 wEffect _ rfl rfl,
   ((invoke_spec wErrAct [("value", .vint 0)]).2.2.1 (.err { message := "Test error" }) rfl).1⟩


/-- C6 counterexample: `Result.fromJSON` on a record with `success: true`
and a non-empty errors array (which passes all three structural checks)
yields a Result whose success flag is true and whose errors array is not
empty, contradicting the invariant as stated. -/
theorem success_result_with_errors_counterexample :
    (Result.fromJSON c6Json 9).success = true ∧
    (Result.fromJSON c6Json 9).errors ≠ [] := by
  exact ⟨rfl, by decide⟩

/-- C6 amended: every Result built by `Result.success` (and hence every
success Result the invocation engine produces) has an empty errors array;
`Result.fromJSON`, however, copies the serialized errors verbatim, so a
deserialized Result can be success-flagged with non-empty errors. -/
theorem success_results_errors_spec :
    (∀ (a : Action) (c : Value) (ps : Option Obj) (ns : Obj),
      (Result.mkSuccess a c ps ns).errors = []) ∧
    (∀ (a : Action) (s : Obj) (r : Result), invoke a s = .result r → r.errors = []) ∧
    (∀ (j : ResultJSON) (now : Nat),
      (Result.fromJSON j now).errors = j.errors.map (fun e => { message := e.message })) := by
  refine ⟨fun a c ps ns => rfl, ?_, fun j now => rfl⟩
  intro a s r h
  rcases hx : a.exec s a.params with t | eff
  · simp [invoke, hx] at h
  · rcases ht : eff.transform s with t | ns
    · simp [invoke, hx, ht] at h
    · simp [invoke, hx, ht] at h
      rw [← h]
      rfl

/-- Witness for `success_results_errors_spec`: the invoke conjunct at a
concrete successful invocation. -/
theorem success_results_errors_spec_witness :
    (Result.mkSuccess wAct wEffect.content (some [("value", .vint 0)])
      [("value", .vint 0), ("count", .vint 3)]).errors = [] :=
  success_results_errors_spec.2.1 wAct [("value", .vint 0)]
    (Result.mkSuccess wAct wEffect.content (some [("value", .vint 0)])
      [("value", .vint 0), ("count", .vint 3)]) rfl

/-- C5 counterexample: the first `toJSON` of an operation succeeds and
registers the executable under the operation id; a second `toJSON` of the
same operation — the id now being registered — throws the Ledger
already-registered error instead of succeeding. -/
theorem toJSON_second_call_throws :
    c5Act.toJSON { entries := [] } =
      .ok ({ id := 7, correlationId := some "corr-1", name := "TEST_ACTION",
             params := [.vint 1], timestamp := 3 }, c5Led) ∧
    c5Act.toJSON c5Led =
      .error { message := "Exec function for action 7 is already registered." } := by
  exact ⟨rfl, rfl⟩

/-- C5 amended: `toJSON` returns the record
id/correlationId/name/params/timestamp and registers the executable under
the operation id when that id is not yet registered; when the id is
already registered, `Ledger.set` throws and `toJSON` propagates the error
instead of succeeding. -/
theorem toJSON_spec (a : CAction) (led : CLedger) :
    (CLedger.has led (.kid a.id) = false →
      a.toJSON led =
        .ok ({ id := a.id, correlationId := a.correlationId, name := a.name,
               params := a.params, timestamp := a.timestamp },
             { entries := led.entries ++ [(.kid a.id, a.exec)] }) ∧
      CLedger.has { entries := led.entries ++ [(.kid a.id, a.exec)] } (.kid a.id) = true) ∧
    (CLedger.has led (.kid a.id) = true →
      a.toJSON led =
        .error { message :=
          "Exec function for action " ++ (CKey.kid a.id).str ++ " is already registered." }) := by
  constructor
  · intro h
    constructor
    · unfold CAction.toJSON CLedger.set
      rw [h]
      rfl
    · unfold CLedger.has
      rw [List.any_append, Bool.or_eq_true]
      right
      simp [List.any_cons]
  · intro h
    unfold CAction.toJSON CLedger.set
    rw [h]
    rfl

/-- Witness for `toJSON_spec`: both branches at concrete inputs. -/
theorem toJSON_spec_witness :
    c5Act.toJSON { entries := [] } =
      .ok ({ id := 7, correlationId := some "corr-1", name := "TEST_ACTION",
             params := [.vint 1], timestamp := 3 },
           { entries := ([] : List (CKey × Exec)) ++ [(.kid 7, c5Exec)] }) ∧
    c5Act.toJSON c5Led =
      .error { message := "Exec function for action 7 is already registered." } :=
  ⟨((toJSON_spec c5Act { entries := [] }).1 rfl).1, (toJSON_spec c5Act c5Led).2 rfl⟩

/-- C8: `rerun` with an out-of-range index (negative, or at least the
history length) returns the immediate invalid-index Issue and leaves the
whole container — state and current pointer included — unchanged. -/
theorem rerun_invalid_index (st : Store) (led : Ledger) (env : Env) (index : Int)
    (cs : Obj) (cb : Option DigestCallback)
    (h : index < 0 ∨ (st.history.length : Int) ≤ index) :
    (st.rerun led env index cs cb).1.issueMessage = some "Invalid index for rerun." ∧
    (st.rerun led env index cs cb).2.1 = st := by
  simp only [Store.rerun, Store.rerunCore]
  rw [if_pos h]
  exact ⟨rfl, rfl⟩

/-- Witness for `rerun_invalid_index`: index 0 on an empty history. -/
theorem rerun_invalid_index_witness :
    (wStore.rerun emptyLedger wEnv 0 wStore.state none).1.issueMessage =
      some "Invalid index for rerun." ∧
    (wStore.rerun emptyLedger wEnv 0 wStore.state none).2.1 = wStore :=
  rerun_invalid_index wStore emptyLedger wEnv 0 wStore.state none (Or.inr (by decide))

/-- C10: every call to `rerun`, `reset` or `hydrate` — successful or not —
creates the internal GENERIC_ERROR_ACTION through `Action.create`, so
afterwards the process-wide Ledger always holds that name; and
`Action.create` silently skips registration when a name is already
present, so a later user action with that name does not get its own
executable registered (first writer wins). -/
theorem generic_error_action_registered (st : Store) (led : Ledger) (env : Env)
    (index : Int) (cs : Obj) (cb : Option DigestCallback) (id : String)
    (fcb : Option FetchCallback) :
    Ledger.has (st.rerun led env index cs cb).2.2 "GENERIC_ERROR_ACTION" = true ∧
    Ledger.has (st.reset led env cs cb).2.2 "GENERIC_ERROR_ACTION" = true ∧
    Ledger.has (st.hydrate led env id fcb).2.2 "GENERIC_ERROR_ACTION" = true ∧
    (∀ (n : String) (ps : List Value) (e : Exec) (now : Nat) (l : Ledger),
      Ledger.has l n = true → (Action.create n ps e now l).2 = l) := by
  refine ⟨?_, ?_, ?_, ?_⟩
  · exact ledger_has_after_create "GENERIC_ERROR_ACTION" [] genericThrowExec env.now led
  · exact ledger_has_after_create "GENERIC_ERROR_ACTION" [] genericThrowExec env.now led
  · exact ledger_has_after_create "GENERIC_ERROR_ACTION" [] genericThrowExec env.now led
  · intro n ps e now l h
    unfold Action.create
    rw [if_pos h]

/-- Witness for `generic_error_action_registered`: concrete store, and the
first-writer-wins conjunct at a registered name. -/
theorem generic_error_action_registered_witness :
    Ledger.has (wStore.rerun emptyLedger wEnv 0 wStore.state none).2.2
      "GENERIC_ERROR_ACTION" = true ∧
    (Action.create "ACT" [] c3Exec 0 c3Ledger).2 = c3Ledger :=
  ⟨(generic_error_action_registered wStore emptyLedger wEnv 0 wStore.state none "x" none).1,
   (generic_error_action_registered wStore emptyLedger wEnv 0 wStore.state none "x" none).2.2.2
     "ACT" [] c3Exec 0 c3Ledger rfl⟩


/-- Successful `apply` outcomes come from the invocation engine and are
success Results with a present nextState. -/
theorem applyA_ok_shape (a : Action) (s : Obj) (r : Result) (h : applyA a s = .ok r) :
    r.success = true ∧ ∃ ns, r.nextState = some ns := by
  unfold applyA at h
  rcases hx : a.exec s a.params with t | eff
  · simp [invoke, hx] at h
  · rcases ht : eff.transform s with t | ns
    · simp [invoke, hx, ht] at h
    · simp [invoke, hx, ht] at h
      rw [← h]
      exact ⟨rfl, ns, rfl⟩

/-- The success path of `add` either returns the Result unchanged with the
state advanced by the shallow merge, or — when the digest step throws — an
Issue with the state equally advanced. -/
theorem addAfterSuccess_cases (st : Store) (env : Env) (a : Action) (r0 : Result)
    (cb : Option DigestCallback) (ns0 : Obj) (hns : r0.nextState = some ns0) :
    ((st.addAfterSuccess env a r0 cb).1 = .result r0 ∨
      (st.addAfterSuccess env a r0 cb).1.isIssue = true) ∧
    (st.addAfterSuccess env a r0 cb).2.state = spreadMerge st.state ns0 := by
  unfold Store.addAfterSuccess
  simp only [hns]
  split
  · rcases hmk : Store.makeDigest _ env cb with e | st4
    · exact ⟨Or.inr rfl, rfl⟩
    · refine ⟨Or.inl rfl, ?_⟩
      have h4 := makeDigest_ok _ env cb st4 hmk
      rw [h4]
  · exact ⟨Or.inl rfl, rfl⟩

/-- C2 amended: `add` always resolves to exactly one of a Result or an
Issue and never throws; when the invocation fails, it resolves to that
Issue with the container state unchanged; when it resolves to a Result,
the state has been advanced by shallow-merging the outcome nextState. (The
digest-callback-throw path, where an Issue is returned with the state
already advanced, is the counterexample to the claim as stated.) -/
theorem add_spec (st : Store) (env : Env) (a : Action) (cs : Obj)
    (cb : Option DigestCallback) :
    ((st.add env a cs cb).1.isResult = true ∨ (st.add env a cs cb).1.isIssue = true) ∧
    (∀ i, applyA a cs = .error i →
      (st.add env a cs cb).1 = .issue i ∧ (st.add env a cs cb).2.state = st.state) ∧
    (∀ r, (st.add env a cs cb).1 = .result r →
      ∃ ns, r.nextState = some ns ∧
        (st.add env a cs cb).2.state = spreadMerge st.state ns) := by
  refine ⟨outcome_total _, ?_, ?_⟩
  · intro i h
    exact ⟨by simp [Store.add, h], by simp [Store.add, h, Store.pruneAdd]⟩
  · intro r hr
    rcases happ : applyA a cs with i | r0
    · simp [Store.add, happ] at hr
    · rcases applyA_ok_shape a cs r0 happ with ⟨hsucc, ns0, hns0⟩
      have hadd : st.add env a cs cb = (st.pruneAdd env.now a).addAfterSuccess env a r0 cb := by
        simp [Store.add, happ, hsucc]
      rw [hadd] at hr ⊢
      rcases (addAfterSuccess_cases (st.pruneAdd env.now a) env a r0 cb ns0 hns0).1
        with hres | hiss
      · rw [hres] at hr
        injection hr with hr2
        subst hr2
        exact ⟨ns0, hns0, (addAfterSuccess_cases (st.pruneAdd env.now a) env a r0 cb ns0 hns0).2⟩
      · rw [hr] at hiss
        cases hiss

/-- Witness for `add_spec`: the Result branch on a concrete successful
add. -/
theorem add_spec_witness :
    (wStore.add wEnv bAct wStore.state none).2.state =
      spreadMerge wStore.state [("a", .vint 1), ("b", .vint 2)] := by
  obtain ⟨ns, hns, hst⟩ := (add_spec wStore wEnv bAct wStore.state none).2.2
    (Result.mkSuccess bAct (.vint 7) (some [("a", Value.vint 1)])
      [("a", .vint 1), ("b", .vint 2)]) rfl
  rw [show (Result.mkSuccess bAct (.vint 7) (some [("a", Value.vint 1)])
      [("a", .vint 1), ("b", .vint 2)]).nextState =
      some [("a", Value.vint 1), ("b", Value.vint 2)] from rfl] at hns
  injection hns with hns2
  rw [← hns2] at hst
  exact hst

/-- C2 counterexample: a successful invocation whose digest persistence
callback throws makes `add` resolve to an Issue while the container state
has already been advanced — the state is not unchanged on the Issue path. -/
theorem add_digest_callback_counterexample :
    (wStore.add wEnv bAct wStore.state (some throwingCallback)).1.isIssue = true ∧
    (wStore.add wEnv bAct wStore.state (some throwingCallback)).2.state =
      [("a", .vint 1), ("b", .vint 2)] ∧
    wStore.state = [("a", .vint 1)] ∧
    ([("a", Value.vint 1), ("b", .vint 2)] : Obj) ≠ [("a", Value.vint 1)] := by
  exact ⟨rfl, rfl, rfl, by decide⟩

/-- When the reset body returns a Result, the pointer has moved down by
exactly one and the state is the shallow merge of the old state with the
re-invocation nextState, which is also the Result nextState. -/
theorem resetCore_result (st : Store) (env : Env) (ga : Action) (cs : Obj)
    (cb : Option DigestCallback) (r : Result)
    (h : (st.resetCore env ga cs cb).1 = .result r) :
    (st.resetCore env ga cs cb).2.currentActionIndex = st.currentActionIndex - 1 ∧
    (∃ ns, (st.resetCore env ga cs cb).2.state = spreadMerge st.state ns) ∧
    r.nextState = some ((st.resetCore env ga cs cb).2.state) := by
  rcases hE : st.resetCore env ga cs cb with ⟨o, st2⟩
  rw [hE] at h
  simp only at h
  subst h
  unfold Store.resetCore at hE
  split at hE
  · split at hE
    · injection hE with h1 h2
      exact absurd h1 (by simp)
    · rename_i action hget
      split at hE
      · injection hE with h1 h2
        exact absurd h1 (by simp)
      · rename_i r0 happ
        split at hE
        · rename_i ns hns
          dsimp only [] at hE
          split at hE
          · split at hE
            · injection hE with h1 h2
              exact absurd h1 (by simp)
            · rename_i st3 hmk
              injection hE with h1 h2
              injection h1 with h1
              subst h1
              subst h2
              have h3 := makeDigest_ok _ env cb st3 hmk
              refine ⟨?_, ⟨ns, ?_⟩, rfl⟩
              · rw [h3]
              · rw [h3]
          · injection hE with h1 h2
            injection h1 with h1
            subst h1
            subst h2
            exact ⟨rfl, ⟨ns, rfl⟩, rfl⟩
        · injection hE with h1 h2
          exact absurd h1 (by simp)
  · injection hE with h1 h2
    exact absurd h1 (by simp)

/-- C9: `reset` re-invokes the entry at the current pointer; whenever it
resolves to a Result, the container state has been advanced by merging the
re-invocation result in and the current pointer has been decremented by
exactly one; with no actions applied (pointer -1, or any negative pointer)
it returns the Issue "No actions to reset." and changes nothing. -/
theorem reset_spec (st : Store) (led : Ledger) (env : Env) (cs : Obj)
    (cb : Option DigestCallback) :
    (st.currentActionIndex < 0 →
      (st.reset led env cs cb).1.issueMessage = some "No actions to reset." ∧
      (st.reset led env cs cb).2.1 = st) ∧
    (∀ r, (st.reset led env cs cb).1 = .result r →
      (st.reset led env cs cb).2.1.currentActionIndex = st.currentActionIndex - 1 ∧
      (∃ ns, (st.reset led env cs cb).2.1.state = spreadMerge st.state ns) ∧
      r.nextState = some ((st.reset led env cs cb).2.1.state)) := by
  constructor
  · intro hneg
    simp only [Store.reset, Store.resetCore]
    rw [if_neg (by omega)]
    exact ⟨rfl, rfl⟩
  · intro r hr
    exact resetCore_result st env _ cs cb r hr

/-- Witness for `reset_spec`: both branches at concrete stores. -/
theorem reset_spec_witness :
    ((wStore.reset emptyLedger wEnv wStore.state none).1.issueMessage =
        some "No actions to reset." ∧
      (wStore.reset emptyLedger wEnv wStore.state none).2.1 = wStore) ∧
    ((c9Store.reset emptyLedger wEnv c9Store.state none).2.1.currentActionIndex =
        c9Store.currentActionIndex - 1 ∧
      (Result.mkSuccess bAct Value.vnull (some c9Store.state)
          [("a", .vint 1), ("b", .vint 2)]).nextState =
        some ((c9Store.reset emptyLedger wEnv c9Store.state none).2.1.state)) :=
  ⟨(reset_spec wStore emptyLedger wEnv wStore.state none).1 (by decide),
   ((reset_spec c9Store emptyLedger wEnv c9Store.state none).2
     (Result.mkSuccess bAct Value.vnull (some c9Store.state)
       [("a", .vint 1), ("b", .vint 2)]) rfl).1,
   ((reset_spec c9Store emptyLedger wEnv c9Store.state none).2
     (Result.mkSuccess bAct Value.vnull (some c9Store.state)
       [("a", .vint 1), ("b", .vint 2)]) rfl).2.2⟩


/-- A pruned history is no longer than the size cap. -/
theorem pruneAdd_length (st : Store) (now : Nat) (a : Action) :
    (st.pruneAdd now a).history.length ≤ st.maxHistorySize := by
  unfold Store.pruneAdd manageHistoryByTime manageHistoryBySize
  refine le_trans (List.length_filter_le _ _) ?_
  rw [List.length_drop]
  omega

/-- Every entry of a pruned history passed the age check at the prune
time. -/
theorem pruneAdd_age (st : Store) (now : Nat) (a : Action) :
    ∀ x ∈ (st.pruneAdd now a).history,
      (now : Int) - (x.timestamp : Int) ≤ (st.maxHistoryTime : Int) := by
  intro x hx
  unfold Store.pruneAdd manageHistoryByTime at hx
  rw [List.mem_filter] at hx
  simpa using hx.2

/-- The success bookkeeping of `add` changes neither the history nor the
two history bounds. -/
theorem addAfterSuccess_fields (st : Store) (env : Env) (a : Action) (r : Result)
    (cb : Option DigestCallback) :
    (st.addAfterSuccess env a r cb).2.history = st.history ∧
    (st.addAfterSuccess env a r cb).2.maxHistorySize = st.maxHistorySize ∧
    (st.addAfterSuccess env a r cb).2.maxHistoryTime = st.maxHistoryTime := by
  unfold Store.addAfterSuccess
  rcases hns : r.nextState with _ | ns <;> dsimp only [] <;> split
  · rcases hmk : Store.makeDigest _ env cb with e | st4
    · exact ⟨rfl, rfl, rfl⟩
    · rw [makeDigest_ok _ env cb st4 hmk]
      exact ⟨rfl, rfl, rfl⟩
  · exact ⟨rfl, rfl, rfl⟩
  · rcases hmk : Store.makeDigest _ env cb with e | st4
    · exact ⟨rfl, rfl, rfl⟩
    · rw [makeDigest_ok _ env cb st4 hmk]
      exact ⟨rfl, rfl, rfl⟩
  · exact ⟨rfl, rfl, rfl⟩

/-- After an `add`, the history is exactly the pruned pushed history, and
the configured bounds are untouched. -/
theorem add_history_config (st : Store) (env : Env) (a : Action) (cs : Obj)
    (cb : Option DigestCallback) :
    (st.add env a cs cb).2.history = (st.pruneAdd env.now a).history ∧
    (st.add env a cs cb).2.maxHistorySize = st.maxHistorySize ∧
    (st.add env a cs cb).2.maxHistoryTime = st.maxHistoryTime := by
  unfold Store.add
  rcases happ : applyA a cs with i | r
  · exact ⟨rfl, rfl, rfl⟩
  · dsimp only []
    split
    · exact addAfterSuccess_fields (st.pruneAdd env.now a) env a r cb
    · exact ⟨rfl, rfl, rfl⟩

/-- `addMany` preserves the configured history bounds. -/
theorem addMany_config (calls : List AddCall) (st : Store) :
    (st.addMany calls).maxHistorySize = st.maxHistorySize ∧
    (st.addMany calls).maxHistoryTime = st.maxHistoryTime := by
  induction calls generalizing st with
  | nil => exact ⟨rfl, rfl⟩
  | cons c rest ih =>
    have h1 := add_history_config st c.env c.action c.currentState c.cb
    have h2 := ih ((st.add c.env c.action c.currentState c.cb).2)
    exact ⟨h2.1.trans h1.2.1, h2.2.trans h1.2.2⟩

/-- C7: on a container constructed with bounds maxHistorySize and
maxHistoryTime, after any number of `add` calls the history length never
exceeds maxHistorySize, and every retained entry passed the age check —
its age relative to its own timestamp at the last prune time is at most
maxHistoryTime. -/
theorem history_bounds (s0 : Obj) (ms mt di : Nat) (st0 : Store)
    (hc : Store.create s0 ms mt di = .ok st0)
    (calls : List AddCall) (c : AddCall) :
    (((st0.addMany calls).add c.env c.action c.currentState c.cb).2.history.length ≤ ms) ∧
    (∀ x ∈ ((st0.addMany calls).add c.env c.action c.currentState c.cb).2.history,
      (c.env.now : Int) - (x.timestamp : Int) ≤ (mt : Int)) := by
  have hms : st0.maxHistorySize = ms := by
    unfold Store.create at hc
    split at hc
    · cases hc
    · split at hc
      · cases hc
      · cases hc
        rfl
  have hmt : st0.maxHistoryTime = mt := by
    unfold Store.create at hc
    split at hc
    · cases hc
    · split at hc
      · cases hc
      · cases hc
        rfl
  set st1 := st0.addMany calls with hst1
  have hcfg := addMany_config calls st0
  have hhist := add_history_config st1 c.env c.action c.currentState c.cb
  constructor
  · rw [hhist.1]
    refine le_trans (pruneAdd_length st1 c.env.now c.action) ?_
    rw [hcfg.1, hms]
  · intro x hx
    rw [hhist.1] at hx
    have := pruneAdd_age st1 c.env.now c.action x hx
    rw [hcfg.2, hmt] at this
    exact this

/-- Witness for `history_bounds`: a freshly created container and a single
concrete `add`. -/
theorem history_bounds_witness :
    ((c7Store.addMany []).add wEnv bAct [("a", Value.vint 1)] none).2.history.length ≤ 50 :=
  (history_bounds [("a", .vint 1)] 50 86400000 10 c7Store rfl []
    { env := wEnv, action := bAct, currentState := [("a", Value.vint 1)], cb := none }).1


/-- Appending a fresh key to the id-keyed Ledger makes `get` on that key
return the appended executable. -/
theorem cledger_get_append (l : CLedger) (k : CKey) (e : Exec)
    (h : l.has k = false) :
    CLedger.get { entries := l.entries ++ [(k, e)] } k = .ok e := by
  unfold CLedger.get
  rw [List.find?_append]
  have hnone : l.entries.find? (fun p => p.1 = k) = none := by
    rw [List.find?_eq_none]
    intro x hx hpx
    have : l.has k = true := by
      unfold CLedger.has
      rw [List.any_eq_true]
      exact ⟨x, hx, hpx⟩
    rw [h] at this
    cases this
  rw [hnone]
  simp [List.find?]

/-- C4: the `toJSON`/`fromJSON` round trip of the id-keyed Action: when
the operation id is not yet registered (so serialization succeeds — it
registers the id as a side effect) and rehydration draws a genuinely fresh
id, `fromJSON (toJSON op)` preserves name, params and correlationId,
carries a different id, and re-attaches the executable registered under
the original serialized id, so it executes identically; conversely,
rehydrating a record whose id is absent from the registry leaves the stub
attached, which rejects on every input. -/
theorem fromJSON_toJSON_roundtrip (a : CAction) (led : CLedger) (fresh now : Nat)
    (hid : led.has (.kid a.id) = false) (hfresh : fresh ≠ a.id) :
    (∃ j led2, a.toJSON led = .ok (j, led2) ∧
      (CAction.fromJSON j fresh now led2).name = a.name ∧
      (CAction.fromJSON j fresh now led2).params = a.params ∧
      (CAction.fromJSON j fresh now led2).correlationId = a.correlationId ∧
      (CAction.fromJSON j fresh now led2).id ≠ a.id ∧
      (CAction.fromJSON j fresh now led2).exec = a.exec) ∧
    (∀ (j2 : CActionJSON) (l : CLedger), l.has (.kid j2.id) = false →
      (CAction.fromJSON j2 fresh now l).exec = stubExec ∧
      ∀ (s : Obj) (ps : List Value), stubExec s ps = .error (.err { message :=
        "Exec function not implemented. Attach exec function using attach()." })) := by
  constructor
  · have hhas : CLedger.has { entries := led.entries ++ [(.kid a.id, a.exec)] }
        (.kid a.id) = true := by
      unfold CLedger.has
      rw [List.any_append, Bool.or_eq_true]
      right
      simp [List.any_cons]
    have hget := cledger_get_append led (.kid a.id) a.exec hid
    have hfj : CAction.fromJSON
        { id := a.id, correlationId := a.correlationId, name := a.name,
          params := a.params, timestamp := a.timestamp } fresh now
        { entries := led.entries ++ [(.kid a.id, a.exec)] } =
        CAction.attach
          { id := fresh, correlationId := a.correlationId, name := a.name,
            params := a.params, exec := stubExec, timestamp := now } a.exec := by
      unfold CAction.fromJSON
      dsimp only []
      rw [if_pos hhas, hget]
    refine ⟨{ id := a.id, correlationId := a.correlationId, name := a.name, params := a.params, timestamp := a.timestamp }, { entries := led.entries ++ [(.kid a.id, a.exec)] }, ?_, ?_, ?_, ?_, ?_, ?_⟩
    · unfold CAction.toJSON CLedger.set
      rw [hid]
      rfl
    · rw [hfj]
      rfl
    · rw [hfj]
      rfl
    · rw [hfj]
      rfl
    · rw [hfj]
      exact hfresh
    · rw [hfj]
      rfl
  · intro j2 l hl
    constructor
    · unfold CAction.fromJSON
      dsimp only []
      rw [hl]
      rfl
    · intro s ps
      rfl


/-- Witness for `fromJSON_toJSON_roundtrip`: the round trip of a concrete
operation starting from an empty registry. -/
theorem fromJSON_toJSON_roundtrip_witness :
    (CAction.fromJSON { id := 7, correlationId := some "corr-1", name := "TEST_ACTION", params := [.vint 1], timestamp := 3 } 8 9 c5Led).name = c5Act.name ∧
    (CAction.fromJSON { id := 7, correlationId := some "corr-1", name := "TEST_ACTION", params := [.vint 1], timestamp := 3 } 8 9 c5Led).params = c5Act.params ∧
    (CAction.fromJSON { id := 7, correlationId := some "corr-1", name := "TEST_ACTION", params := [.vint 1], timestamp := 3 } 8 9 c5Led).correlationId = c5Act.correlationId ∧
    (CAction.fromJSON { id := 7, correlationId := some "corr-1", name := "TEST_ACTION", params := [.vint 1], timestamp := 3 } 8 9 c5Led).id ≠ c5Act.id ∧
    (CAction.fromJSON { id := 7, correlationId := some "corr-1", name := "TEST_ACTION", params := [.vint 1], timestamp := 3 } 8 9 c5Led).exec = c5Act.exec ∧
    (CAction.fromJSON { id := 7, correlationId := some "corr-1", name := "TEST_ACTION", params := [.vint 1], timestamp := 3 } 8 9 { entries := [] }).exec = stubExec ∧
    stubExec [] [] = .error (.err { message := "Exec function not implemented. Attach exec function using attach()." }) := by
  obtain ⟨⟨j, led2, hj, h1, h2, h3, h4, h5⟩, habs⟩ :=
    fromJSON_toJSON_roundtrip c5Act { entries := [] } 8 9 rfl (by decide)
  rw [show c5Act.toJSON { entries := [] } = .ok ({ id := 7, correlationId := some "corr-1", name := "TEST_ACTION", params := [.vint 1], timestamp := 3 }, c5Led) from rfl] at hj
  injection hj with hp
  injection hp with hpj hpl
  subst hpj
  subst hpl
  exact ⟨h1, h2, h3, h4, h5,
    (habs { id := 7, correlationId := some "corr-1", name := "TEST_ACTION", params := [.vint 1], timestamp := 3 } { entries := [] } rfl).1,
    (habs { id := 7, correlationId := some "corr-1", name := "TEST_ACTION", params := [.vint 1], timestamp := 3 } { entries := [] } rfl).2 [] []⟩

/-- Under distinct top-level keys, looking any entry of an object up finds
that entry. -/
theorem objGet_self (s : Obj) (hnd : (s.map Prod.fst).Nodup) :
    ∀ p ∈ s, objGet s p.1 = some p.2 := by
  induction s with
  | nil =>
    intro p hp
    cases hp
  | cons q t ih =>
    intro p hp
    rcases List.mem_cons.mp hp with rfl | hpt
    · unfold objGet
      rw [List.find?_cons_of_pos]
      · rfl
      · simp
    · have hq : q.1 ∉ t.map Prod.fst := (List.nodup_cons.mp hnd).1
      have hne : q.1 ≠ p.1 := by
        intro he
        exact hq (he ▸ List.mem_map_of_mem Prod.fst hpt)
      unfold objGet
      rw [List.find?_cons_of_neg]
      · exact ih (List.nodup_cons.mp hnd).2 p hpt
      · simp only [decide_eq_true_eq]
        exact hne

/-- Spreading an object with distinct keys over itself reproduces it. -/
theorem spreadMerge_self (s : Obj) (hnd : (s.map Prod.fst).Nodup) :
    spreadMerge s s = s := by
  unfold spreadMerge
  have h1 : s.map (fun p => (p.1, (objGet s p.1).getD p.2)) = s := by
    rw [List.map_congr_left (g := fun p => p), List.map_id']
    intro p hp
    rw [objGet_self s hnd p hp]
    exact Prod.mk.eta
  have h2 : s.filter (fun p => objGet s p.1 = Option.none) = [] := by
    rw [List.filter_eq_nil_iff]
    intro p hp
    rw [objGet_self s hnd p hp]
    simp
  rw [h1, h2, List.append_nil]

/-- When every name in a serialized history is registered, the restoration
succeeds and preserves the names and params entry by entry. -/
theorem restoreHistory_ok (led : Ledger) (now : Nat) (l : List ActionJSON)
    (h : ∀ aj ∈ l, Ledger.has led aj.name = true) :
    ∃ acts, restoreHistory led now l = .ok acts ∧
      acts.map Action.name = l.map ActionJSON.name ∧
      acts.map Action.params = l.map ActionJSON.params := by
  induction l with
  | nil => exact ⟨[], rfl, rfl, rfl⟩
  | cons aj rest ih =>
    have hhead := h aj (List.mem_cons_self aj rest)
    have hget : ∃ e, led.get aj.name = .ok e := by
      unfold Ledger.get
      unfold Ledger.has at hhead
      rw [List.any_eq_true] at hhead
      obtain ⟨p, hp, hpk⟩ := hhead
      cases hf : led.entries.find? (fun p => p.1 = aj.name) with
      | none =>
        rw [List.find?_eq_none] at hf
        exact absurd hpk (by simpa using hf p hp)
      | some q => exact ⟨q.2, rfl⟩
    obtain ⟨e, he⟩ := hget
    obtain ⟨acts, hacts, hn, hp⟩ := ih (fun x hx => h x (List.mem_cons_of_mem aj hx))
    refine ⟨(Action.fromJSON aj now).attach e :: acts, ?_, ?_, ?_⟩
    · unfold restoreHistory
      rw [he, hacts]
    · simp only [List.map_cons, hn]
      rfl
    · simp only [List.map_cons, hp]
      rfl

/-- A key registered in the Ledger stays registered after `Action.create`
runs for any name. -/
theorem ledger_has_mono_create (l : Ledger) (n m : String) (ps : List Value)
    (e : Exec) (now : Nat) (h : l.has m = true) :
    ((Action.create n ps e now l).2).has m = true := by
  unfold Action.create
  split
  · exact h
  · unfold Ledger.has at h ⊢
    rw [List.any_append, Bool.or_eq_true]
    exact Or.inl h

/-- With no fetch callback, `findDigest` resolves from the local digest
list and restores the serialized history through the Ledger. -/
theorem findDigest_local (st : Store) (led : Ledger) (env : Env) (id : String)
    (sd : SDigest) (hfind : st.digests.find? (fun d => d.id = id) = some sd)
    (acts : List Action) (hacts : restoreHistory led env.now sd.history = .ok acts) :
    st.findDigest led env id none =
      .ok { id := sd.id, timestamp := sd.timestamp, state := sd.state, history := acts } := by
  unfold Store.findDigest
  simp only [hfind, hacts, bind, Except.bind, pure, Except.pure]

/-- C3 amended: creating a digest alters neither the container state nor
its history (it only stores the serializable snapshot); hydrating from a
locally stored digest whose action names are registered always succeeds,
REPLACES the history with actions rebuilt from the snapshot (same names
and params, fresh timestamps, executables re-attached from the Ledger),
sets the state to the shallow merge of the current state under the
captured state — which reproduces the captured state exactly when the
current state still equals the captured state with distinct keys, but not
in general — resets the action counter to 0 and puts the pointer at the
end of the restored history. -/
theorem digest_roundtrip_spec :
    (∀ (st : Store) (env : Env) (cb : Option DigestCallback) (st' : Store),
      st.makeDigest env cb = .ok st' → st'.state = st.state ∧ st'.history = st.history) ∧
    (∀ (st : Store) (led : Ledger) (env : Env) (id : String) (sd : SDigest),
      st.digests.find? (fun d => d.id = id) = some sd →
      (∀ aj ∈ sd.history, Ledger.has led aj.name = true) →
      ∃ acts, (st.hydrate led env id none).1.isResult = true ∧
        (st.hydrate led env id none).2.1.state = spreadMerge st.state sd.state ∧
        (st.hydrate led env id none).2.1.history = acts ∧
        (st.hydrate led env id none).2.1.currentActionIndex = (acts.length : Int) - 1 ∧
        (st.hydrate led env id none).2.1.actionCounter = 0 ∧
        acts.map Action.name = sd.history.map ActionJSON.name ∧
        acts.map Action.params = sd.history.map ActionJSON.params) ∧
    (∀ s : Obj, (s.map Prod.fst).Nodup → spreadMerge s s = s) := by
  refine ⟨?_, ?_, spreadMerge_self⟩
  · intro st env cb st' h
    rw [makeDigest_ok st env cb st' h]
    exact ⟨rfl, rfl⟩
  · intro st led env id sd hfind hnames
    have hnames2 : ∀ aj ∈ sd.history,
        Ledger.has (Action.create "GENERIC_ERROR_ACTION" [] genericThrowExec env.now led).2
          aj.name = true :=
      fun aj haj => ledger_has_mono_create led _ _ _ _ env.now (hnames aj haj)
    obtain ⟨acts, hacts, hn, hp⟩ :=
      restoreHistory_ok (Action.create "GENERIC_ERROR_ACTION" [] genericThrowExec env.now led).2
        env.now sd.history hnames2
    have hfd := findDigest_local st
      (Action.create "GENERIC_ERROR_ACTION" [] genericThrowExec env.now led).2
      env id sd hfind acts hacts
    have hh : (st.hydrate led env id none).2.1 =
        { st with state := spreadMerge st.state sd.state, history := acts,
                  currentActionIndex := (acts.length : Int) - 1, actionCounter := 0 } := by
      unfold Store.hydrate Store.hydrateCore
      dsimp only []
      rw [hfd]
    have hh1 : (st.hydrate led env id none).1.isResult = true := by
      unfold Store.hydrate Store.hydrateCore
      dsimp only []
      rw [hfd]
      rfl
    exact ⟨acts, hh1, by rw [hh], by rw [hh], by rw [hh], by rw [hh], hn, hp⟩

/-- Witness for `digest_roundtrip_spec`: the concrete digest scenario. -/
theorem digest_roundtrip_spec_witness :
    (c3St1.state = c3Store.state ∧ c3St1.history = c3Store.history) ∧
    (c3St1.hydrate c3Ledger c3Env2 "digest-1" none).1.isResult = true ∧
    (c3St1.hydrate c3Ledger c3Env2 "digest-1" none).2.1.state =
      spreadMerge c3St1.state c3SD.state ∧
    (c3St1.hydrate c3Ledger c3Env2 "digest-1" none).2.1.actionCounter = 0 ∧
    (c3St1.hydrate c3Ledger c3Env2 "digest-1" none).2.1.currentActionIndex =
      ((c3St1.hydrate c3Ledger c3Env2 "digest-1" none).2.1.history.length : Int) - 1 ∧
    spreadMerge [("a", Value.vint 1)] [("a", Value.vint 1)] = [("a", Value.vint 1)] := by
  obtain ⟨acts, h1, h2, h3, h4, h5, h6, h7⟩ :=
    digest_roundtrip_spec.2.1 c3St1 c3Ledger c3Env2 "digest-1" c3SD rfl (by
      intro aj haj
      simp only [c3SD, List.mem_singleton] at haj
      subst haj
      rfl)
  refine ⟨digest_roundtrip_spec.1 c3Store wEnv none c3St1 rfl, h1, h2, h5, ?_,
    digest_roundtrip_spec.2.2 [("a", Value.vint 1)] (by decide)⟩
  rw [h4, h3]

/-- C3 counterexample: a digest is created (leaving state and history
untouched), one further action then advances the state, and hydrating from
that digest afterwards succeeds but yields a state that is NOT deep-equal
to the captured snapshot — the extra top-level key survives the shallow
merge. -/
theorem digest_roundtrip_counterexample :
    c3Store.makeDigest wEnv none = .ok c3St1 ∧
    c3St1.state = c3Store.state ∧
    c3St1.history = c3Store.history ∧
    c3St1.digests = [c3SD] ∧
    (c3St1.add c3Env1 bAct c3St1.state none).1.isResult = true ∧
    c3St2.state = [("a", .vint 1), ("b", .vint 2)] ∧
    (c3St2.hydrate c3Ledger c3Env2 "digest-1" none).1.isResult = true ∧
    (c3St2.hydrate c3Ledger c3Env2 "digest-1" none).2.1.state =
      [("a", .vint 1), ("b", .vint 2)] ∧
    c3SD.state = [("a", .vint 1)] ∧
    ([("a", Value.vint 1), ("b", Value.vint 2)] : Obj) ≠ [("a", Value.vint 1)] := by
  refine ⟨rfl, rfl, rfl, rfl, rfl, rfl, rfl, rfl, rfl, by decide⟩

end ResultsJS
